import Mathlib

/-
Verification development for the leaderboard-service repository.

Shallow embedding conventions:
  * Go string-typed enums (TimeFrame, SortOrder, ...) are Lean `String`s,
    matching the Go declarations `type TimeFrame string` etc.
  * `time.Time` is modelled as `Int`; the Go zero time value is `0`, so
    `t.IsZero()` becomes `t = 0`.  `uuid.UUID` is modelled as `Nat`.
  * `float64` is modelled as `ℚ` (the spec states all aggregation and score
    arithmetic as exact arithmetic).
  * A GORM table is a `List` of rows; soft deletion is a `deletedAt` field and
    every query excludes rows with `deletedAt ≠ none`, matching
    `gorm.DeletedAt` semantics.
  * `time.Parse (RFC3339)` is an external library call; it is passed in as an
    abstract partial function `parse : String → Option Int`.
  * A fallible service call returns `Except ServiceError α × List row`: the
    result together with the table after the call (unchanged on error, since
    the Go code returns before touching the repository).
-/

namespace Leaderboards

/-- Enum values from the Go TimeFrame declaration (src enums, TimeFrame file):
the declared constants are exactly daily, weekly, monthly, yearly, all-time. -/
def TimeFrame.Daily : String := "daily"

def TimeFrame.Weekly : String := "weekly"

def TimeFrame.Monthly : String := "monthly"

def TimeFrame.Yearly : String := "yearly"

def TimeFrame.AllTime : String := "all-time"

/-- Embedding of Go TimeFrame.Valid: a switch over the five declared
constants, `false` for every other string (there is no Custom constant). -/
def TimeFrame.Valid (tf : String) : Bool :=
  tf == TimeFrame.Daily || tf == TimeFrame.Weekly || tf == TimeFrame.Monthly ||
    tf == TimeFrame.Yearly || tf == TimeFrame.AllTime

/-- Embedding of Go TimeFrame.Value (driver.Valuer): returns the string for
the five declared constants and an error otherwise. -/
def TimeFrame.Value (tf : String) : Except String String :=
  if TimeFrame.Valid tf then Except.ok tf else Except.error "invalid TimeFrame"

/-- The oneof list of the validate tag on CreateLeaderboardRequest.TimeFrame
(handlers/leaderboard.go line 815): oneof=daily weekly monthly yearly all-time
custom. -/
def oneofTimeFrame : List String :=
  ["daily", "weekly", "monthly", "yearly", "all-time", "custom"]

/-- Embedding of models.Leaderboard (Go field Type is written typ here because
Type is a Lean keyword).  Enum-typed fields stay strings, dates are optional
Int timestamps, deletedAt embeds gorm soft deletion. -/
structure Leaderboard where
  id : Nat
  name : String
  description : String
  category : String
  typ : String
  timeFrame : String
  startDate : Option Int
  endDate : Option Int
  sortOrder : String
  visibilityScope : String
  maxEntries : Int
  isActive : Bool
  deletedAt : Option Int
  deriving DecidableEq

/-- Embedding of models.Metric. -/
structure Metric where
  id : Nat
  name : String
  description : String
  dataType : String
  unit : String
  aggregationType : String
  resetPeriod : String
  isHigherBetter : Bool
  deletedAt : Option Int
  deriving DecidableEq

/-- Embedding of models.Participant (metadata is opaque and omitted: no
claim inspects it). -/
structure Participant where
  id : Nat
  externalId : String
  name : String
  typ : String
  deletedAt : Option Int
  deriving DecidableEq

/-- Embedding of models.MetricValue (Context is opaque jsonb, modelled as a
String payload). -/
structure MetricValue where
  id : Nat
  metricId : Nat
  participantId : Nat
  value : ℚ
  timestamp : Int
  source : String
  context : String
  deletedAt : Option Int
  deriving DecidableEq

/-- Embedding of models.LeaderboardEntry. -/
structure LeaderboardEntry where
  id : Nat
  leaderboardId : Nat
  participantId : Nat
  rank : Int
  score : ℚ
  lastUpdated : Int
  deletedAt : Option Int
  deriving DecidableEq

/-- Domain errors produced at the service boundary (errors.New messages in
the Go services). -/
inductive ServiceError
  | metricNotFound
  | participantNotFound
  | leaderboardNotFound
  | leaderboardEntryNotFound
  | metricValueNotFound
  deriving DecidableEq

/-- Embedding of metricRepository.FindByID: gorm First on id, which excludes
soft-deleted rows. -/
def MetricRepository.FindByID (table : List Metric) (id : Nat) : Option Metric :=
  table.find? fun m => decide (m.id = id ∧ m.deletedAt = none)

/-- Embedding of participantRepository.FindByID. -/
def ParticipantRepository.FindByID (table : List Participant) (id : Nat) : Option Participant :=
  table.find? fun p => decide (p.id = id ∧ p.deletedAt = none)

/-- Embedding of leaderboardRepository.FindByID. -/
def LeaderboardRepository.FindByID (table : List Leaderboard) (id : Nat) : Option Leaderboard :=
  table.find? fun l => decide (l.id = id ∧ l.deletedAt = none)

/-- Embedding of leaderboardRepository.Update: gorm Save replaces the row
with the matching primary key. -/
def LeaderboardRepository.Update (table : List Leaderboard) (lb : Leaderboard) :
    List Leaderboard :=
  table.map fun x => if x.id = lb.id then lb else x

/-- Embedding of metricRepository.Update. -/
def MetricRepository.Update (table : List Metric) (m : Metric) : List Metric :=
  table.map fun x => if x.id = m.id then m else x

/-- Embedding of leaderboardEntryRepository.FindByID. -/
def LeaderboardEntryRepository.FindByID (table : List LeaderboardEntry) (id : Nat) :
    Option LeaderboardEntry :=
  table.find? fun e => decide (e.id = id ∧ e.deletedAt = none)

/-- Embedding of leaderboardEntryRepository.Update. -/
def LeaderboardEntryRepository.Update (table : List LeaderboardEntry) (e : LeaderboardEntry) :
    List LeaderboardEntry :=
  table.map fun x => if x.id = e.id then e else x

/-- Rank order used by the entry listing (ORDER BY rank asc). -/
def rankLe (a b : LeaderboardEntry) : Prop := a.rank ≤ b.rank

instance : DecidableRel rankLe := fun a b => by
  unfold rankLe; infer_instance

/-- Embedding of leaderboardEntryRepository.FindFiltered
(repositories/leaderboard.repository.go lines 117-132): optional WHERE
clauses on leaderboard_id and participant_id, then ORDER BY rank asc; gorm
Find excludes soft-deleted rows. -/
def LeaderboardEntryRepository.FindFiltered (table : List LeaderboardEntry)
    (leaderboardID participantID : Option Nat) : List LeaderboardEntry :=
  List.insertionSort rankLe (table.filter fun e =>
    decide (e.deletedAt = none) &&
    (match leaderboardID with
     | none => true
     | some lid => decide (e.leaderboardId = lid)) &&
    (match participantID with
     | none => true
     | some pid => decide (e.participantId = pid)))

/-- Timestamp order used by the metric value listing (ORDER BY timestamp
desc). -/
def timestampDesc (a b : MetricValue) : Prop := b.timestamp ≤ a.timestamp

instance : DecidableRel timestampDesc := fun a b => by
  unfold timestampDesc; infer_instance

/-- Embedding of metricValueRepository.FindFiltered
(repositories/metric.repository.go lines 118-141): optional WHERE clauses on
metric_id, participant_id, timestamp >= from, timestamp <= to, then ORDER BY
timestamp desc; gorm Find excludes soft-deleted rows. -/
def MetricValueRepository.FindFiltered (table : List MetricValue)
    (metricID participantID : Option Nat) (fromTime toTime : Option Int) :
    List MetricValue :=
  List.insertionSort timestampDesc (table.filter fun mv =>
    decide (mv.deletedAt = none) &&
    (match metricID with
     | none => true
     | some m => decide (mv.metricId = m)) &&
    (match participantID with
     | none => true
     | some p => decide (mv.participantId = p)) &&
    (match fromTime with
     | none => true
     | some f => decide (f ≤ mv.timestamp)) &&
    (match toTime with
     | none => true
     | some t => decide (mv.timestamp ≤ t)))

/-- Embedding of utils.ValidateDates (src/utils/dates.go lines 7-25),
parameterised by the external time.Parse call.  Note the exact control flow
of the source: if startDate is non-nil the function returns after parsing it
and never looks at endDate; if only endDate is non-nil its parsed value is
returned in the FIRST component; the second component is always nil. -/
def ValidateDates (parse : String → Option Int) (startDate endDate : Option String) :
    Option Int × Option Int :=
  match startDate with
  | some s =>
    match parse s with
    | none => (none, none)
    | some d => (some d, none)
  | none =>
    match endDate with
    | some s =>
      match parse s with
      | none => (none, none)
      | some d => (some d, none)
    | none => (none, none)

/-- Embedding of leaderboardService.CreateLeaderboard (service file, lines
113-139): parses the dates through utils.ValidateDates, builds the entity and
stores it.  Returns the created leaderboard and the table after the insert. -/
def CreateLeaderboard (parse : String → Option Int) (table : List Leaderboard)
    (newId : Nat) (name description category typ timeFrame : String)
    (startDate endDate : Option String) (sortOrder visibilityScope : String)
    (maxEntries : Int) (isActive : Bool) : Leaderboard × List Leaderboard :=
  let se := ValidateDates parse startDate endDate
  let lb : Leaderboard :=
    ⟨newId, name, description, category, typ, timeFrame, se.1, se.2,
      sortOrder, visibilityScope, maxEntries, isActive, none⟩
  (lb, table ++ [lb])

/-- Embedding of leaderboardService.UpdateLeaderboard (service file, lines
156-213): find the row, apply exactly the supplied fields, with the date
block guarded by startDate != nil or endDate != nil and routed through
utils.ValidateDates, then save. -/
def UpdateLeaderboard (parse : String → Option Int) (table : List Leaderboard)
    (id : Nat) (name description category typ timeFrame : Option String)
    (startDate endDate : Option String) (sortOrder visibilityScope : Option String)
    (maxEntries : Option Int) (isActive : Option Bool) :
    Except ServiceError Leaderboard × List Leaderboard :=
  match LeaderboardRepository.FindByID table id with
  | none => (Except.error ServiceError.leaderboardNotFound, table)
  | some lb0 =>
    let l1 := match name with
      | some v => { lb0 with name := v }
      | none => lb0
    let l2 := match description with
      | some v => { l1 with description := v }
      | none => l1
    let l3 := match category with
      | some v => { l2 with category := v }
      | none => l2
    let l4 := match typ with
      | some v => { l3 with typ := v }
      | none => l3
    let l5 := match timeFrame with
      | some v => { l4 with timeFrame := v }
      | none => l4
    let l6 :=
      if startDate.isSome || endDate.isSome then
        let se := ValidateDates parse startDate endDate
        let a := if startDate.isSome then { l5 with startDate := se.1 } else l5
        if endDate.isSome then { a with endDate := se.2 } else a
      else l5
    let l7 := match sortOrder with
      | some v => { l6 with sortOrder := v }
      | none => l6
    let l8 := match visibilityScope with
      | some v => { l7 with visibilityScope := v }
      | none => l7
    let l9 := match maxEntries with
      | some v => { l8 with maxEntries := v }
      | none => l8
    let l10 := match isActive with
      | some v => { l9 with isActive := v }
      | none => l9
    (Except.ok l10, LeaderboardRepository.Update table l10)

/-- Embedding of metricService.UpdateMetric (src/services/metric.service.go
lines 70-111): find the row, apply exactly the supplied fields, save. -/
def UpdateMetric (table : List Metric) (id : Nat)
    (name description dataType unit aggregationType resetPeriod : Option String)
    (isHigherBetter : Option Bool) : Except ServiceError Metric × List Metric :=
  match MetricRepository.FindByID table id with
  | none => (Except.error ServiceError.metricNotFound, table)
  | some m0 =>
    let m1 := match name with
      | some v => { m0 with name := v }
      | none => m0
    let m2 := match description with
      | some v => { m1 with description := v }
      | none => m1
    let m3 := match dataType with
      | some v => { m2 with dataType := v }
      | none => m2
    let m4 := match unit with
      | some v => { m3 with unit := v }
      | none => m3
    let m5 := match aggregationType with
      | some v => { m4 with aggregationType := v }
      | none => m4
    let m6 := match resetPeriod with
      | some v => { m5 with resetPeriod := v }
      | none => m5
    let m7 := match isHigherBetter with
      | some v => { m6 with isHigherBetter := v }
      | none => m6
    (Except.ok m7, MetricRepository.Update table m7)

/-- Embedding of metricValueService.CreateMetricValue (services part,
lines 44-77): verify the metric exists, verify the participant exists,
default a zero timestamp to time.Now, build and store the observation. -/
def CreateMetricValue (metrics : List Metric) (participants : List Participant)
    (table : List MetricValue) (newId : Nat) (now : Int)
    (metricID participantID : Nat) (value : ℚ) (timestamp : Int)
    (source context : String) : Except ServiceError MetricValue × List MetricValue :=
  match MetricRepository.FindByID metrics metricID with
  | none => (Except.error ServiceError.metricNotFound, table)
  | some _ =>
    match ParticipantRepository.FindByID participants participantID with
    | none => (Except.error ServiceError.participantNotFound, table)
    | some _ =>
      let ts := if timestamp = 0 then now else timestamp
      let mv : MetricValue :=
        ⟨newId, metricID, participantID, value, ts, source, context, none⟩
      (Except.ok mv, table ++ [mv])

/-- Embedding of leaderboardEntryService.CreateLeaderboardEntry (services
part, lines 42-74): verify the leaderboard exists, verify the participant
exists, default a zero lastUpdated to time.Now, build and store the entry. -/
def CreateLeaderboardEntry (leaderboards : List Leaderboard)
    (participants : List Participant) (table : List LeaderboardEntry)
    (newId : Nat) (now : Int) (leaderboardID participantID : Nat)
    (score : ℚ) (rank : Int) (lastUpdated : Int) :
    Except ServiceError LeaderboardEntry × List LeaderboardEntry :=
  match LeaderboardRepository.FindByID leaderboards leaderboardID with
  | none => (Except.error ServiceError.leaderboardNotFound, table)
  | some _ =>
    match ParticipantRepository.FindByID participants participantID with
    | none => (Except.error ServiceError.participantNotFound, table)
    | some _ =>
      let lu := if lastUpdated = 0 then now else lastUpdated
      let e : LeaderboardEntry :=
        ⟨newId, leaderboardID, participantID, rank, score, lu, none⟩
      (Except.ok e, table ++ [e])

/-- Embedding of leaderboardEntryService.UpdateLeaderboardEntry (services
part, lines 95-126): find the row, apply the supplied fields, and when
lastUpdated is not supplied set it to time.Now. -/
def UpdateLeaderboardEntry (table : List LeaderboardEntry) (now : Int) (id : Nat)
    (score : Option ℚ) (rank : Option Int) (lastUpdated : Option Int) :
    Except ServiceError LeaderboardEntry × List LeaderboardEntry :=
  match LeaderboardEntryRepository.FindByID table id with
  | none => (Except.error ServiceError.leaderboardEntryNotFound, table)
  | some e0 =>
    let e1 := match score with
      | some v => { e0 with score := v }
      | none => e0
    let e2 := match rank with
      | some v => { e1 with rank := v }
      | none => e1
    let e3 := match lastUpdated with
      | some v => { e2 with lastUpdated := v }
      | none => { e2 with lastUpdated := now }
    (Except.ok e3, LeaderboardEntryRepository.Update table e3)

/-- Embedding of validation.validateCustomTimeframe (src/validation/
validator.go lines 61-109), specialised to the leaderboard request structs
whose TimeFrame is a string and whose StartDate/EndDate are string pointers:
when TimeFrame is not custom the check passes; when it is custom both
pointers must be non-nil. -/
def validateCustomTimeframe (timeFrame : String) (startDate endDate : Option String) :
    Bool :=
  if timeFrame ≠ "custom" then true
  else startDate.isSome && endDate.isSome

/-- Embedding of the validate struct tags of CreateLeaderboardRequest
(handlers/leaderboard.go lines 810-822), with the external datetime-format
check passed in as datetimeOK.  go-playground required on a string means
non-empty; omitempty,min=1 on MaxEntries skips the zero value. -/
def ValidateCreateLeaderboardRequest (datetimeOK : String → Bool)
    (name category typ timeFrame : String) (startDate endDate : Option String)
    (sortOrder visibilityScope : String) (maxEntries : Int) : Bool :=
  decide (name ≠ "") &&
  decide (category ≠ "") &&
  ["individual", "team"].contains typ &&
  decide (timeFrame ≠ "") &&
  oneofTimeFrame.contains timeFrame &&
  validateCustomTimeframe timeFrame startDate endDate &&
  (match startDate with
   | none => true
   | some s => datetimeOK s) &&
  (match endDate with
   | none => true
   | some s => datetimeOK s) &&
  ["ascending", "descending"].contains sortOrder &&
  ["public", "private"].contains visibilityScope &&
  (decide (maxEntries = 0) || decide (1 ≤ maxEntries))

/-- Handler-level error kinds for the leaderboard create endpoint. -/
inductive HandlerError
  | validationError
  | internalError
  deriving DecidableEq

/-- Embedding of LeaderboardHandler.CreateLeaderboard (handlers/
leaderboard.go lines 882-918) from validation onward: when the validator
rejects the request the handler responds with a validation error before the
service is ever invoked, so the table is unchanged; otherwise it delegates to
leaderboardService.CreateLeaderboard. -/
def CreateLeaderboardHandler (datetimeOK : String → Bool)
    (parse : String → Option Int) (table : List Leaderboard) (newId : Nat)
    (name description category typ timeFrame : String)
    (startDate endDate : Option String) (sortOrder visibilityScope : String)
    (maxEntries : Int) (isActive : Bool) :
    Except HandlerError Leaderboard × List Leaderboard :=
  if ValidateCreateLeaderboardRequest datetimeOK name category typ timeFrame
      startDate endDate sortOrder visibilityScope maxEntries then
    let r := CreateLeaderboard parse table newId name description category typ
      timeFrame startDate endDate sortOrder visibilityScope maxEntries isActive
    (Except.ok r.1, r.2)
  else
    (Except.error HandlerError.validationError, table)

/-- Concrete stand-in for the external Go time.Parse (RFC3339) call, defined
on the date strings used by the concrete test inputs below. -/
def parseRFC3339x : String → Option Int := fun s =>
  if s = "2023-01-01T00:00:00Z" then some 0
  else if s = "2023-01-31T23:59:59Z" then some 30
  else if s = "2023-02-28T23:59:59Z" then some 58
  else none

/-- Modelled from the spec: the repository contains no implementation of
GetAggregate (the Metric Aggregation Engine of section 4.2 is documented
intent only), so the aggregation type vocabulary is taken from the spec
table: sum, average, count, min, max, last. -/
inductive AggregationType
  | sum
  | average
  | count
  | min
  | max
  | last
  deriving DecidableEq

/-- Modelled from the spec: one MetricValue observation as seen by the
aggregation engine (value, timestamp for ordering, id for the last tie
break). -/
structure Observation where
  value : ℚ
  timestamp : Int
  id : Nat
  deriving DecidableEq

/-- Later of two observations: greater timestamp, ties broken by greater id
(spec section 4.2, the last row of the aggregation table). -/
def laterObs (a b : Observation) : Observation :=
  if a.timestamp < b.timestamp ∨ (a.timestamp = b.timestamp ∧ a.id < b.id) then b else a

/-- Modelled from the spec: GetAggregate of section 4.2 (the engine is absent
from the repository).  NoData is represented by none: sum of the values, 0 on
empty; average is the mean, 0 on empty by documented policy; count is the
size; min, max and last are none on the empty set. -/
def GetAggregate : AggregationType → List Observation → Option ℚ
  | AggregationType.sum, V => some (V.map Observation.value).sum
  | AggregationType.average, V =>
    if V.isEmpty then some 0 else some ((V.map Observation.value).sum / V.length)
  | AggregationType.count, V => some V.length
  | AggregationType.min, V =>
    match V.map Observation.value with
    | [] => none
    | v :: vs => some (vs.foldl Min.min v)
  | AggregationType.max, V =>
    match V.map Observation.value with
    | [] => none
    | v :: vs => some (vs.foldl Max.max v)
  | AggregationType.last, V =>
    match V with
    | [] => none
    | o :: os => some (os.foldl laterObs o).value

/-- Modelled from the spec: a materialised ranking row produced by the
Ranking Assigner (section 4.4), which the repository does not implement. -/
structure RankedEntry where
  participantId : Nat
  score : ℚ
  rank : Nat
  deriving DecidableEq

/-- Modelled from the spec: the sort key of section 4.4 step 4 as a
non-strict total preorder on (participant id, composite score) pairs.  asc
selects the direction; ties on score fall back to participant id
ascending. -/
def candLe (asc : Bool) (a b : Nat × ℚ) : Prop :=
  (if asc then a.2 < b.2 else b.2 < a.2) ∨ (a.2 = b.2 ∧ a.1 ≤ b.1)

instance : DecidableRel (candLe asc) := fun a b => by
  unfold candLe; infer_instance

/-- Modelled from the spec: the strict version of the section 4.4 order
(score strictly better, or equal score and strictly smaller participant
id). -/
def candLt (asc : Bool) (a b : Nat × ℚ) : Prop :=
  (if asc then a.2 < b.2 else b.2 < a.2) ∨ (a.2 = b.2 ∧ a.1 < b.1)

/-- Modelled from the spec: dense 1-based rank assignment in list order
(section 4.4 step 5). -/
def assignRanks : List (Nat × ℚ) → Nat → List RankedEntry
  | [], _ => []
  | c :: cs, r => ⟨c.1, c.2, r⟩ :: assignRanks cs (r + 1)

/-- Modelled from the spec: RecomputeLeaderboard steps 4 and 5 (sort the
candidate (participant id, composite score) pairs per SortOrder with the
participant-id tie break, then assign dense ranks 1..N); the recomputation
pass is absent from the repository.  The leaderboard SortOrder is the Go
string, ascending meaning smallest score first. -/
def RecomputeLeaderboardRanks (sortOrder : String) (cands : List (Nat × ℚ)) :
    List RankedEntry :=
  assignRanks (List.insertionSort (candLe (sortOrder == "ascending")) cands) 1

def pidScore (e : RankedEntry) : Nat × ℚ := (e.participantId, e.score)

/-- Sample rows used by the concrete witness instantiations below. -/
def sampleMetric : Metric := ⟨1, "points", "", "integer", "", "sum", "none", true, none⟩

def sampleParticipant : Participant := ⟨2, "", "Alice", "individual", none⟩

def sampleLeaderboard : Leaderboard :=
  ⟨3, "League", "", "season", "individual", "weekly", none, none,
    "descending", "public", 0, true, none⟩

def sampleEntry : LeaderboardEntry := ⟨4, 3, 2, 1, 10, 50, none⟩

/-- C9: TimeFrame.Valid returns true for exactly the five declared strings;
the string custom is in the oneof list of the create request validation, yet
TimeFrame.Valid "custom" is false and TimeFrame.Value "custom" errors, so
custom is not a storable TimeFrame at the enum layer. -/
theorem timeFrame_valid_exactly_five_and_custom_rejected :
    (∀ s : String, TimeFrame.Valid s = true ↔
      s = "daily" ∨ s = "weekly" ∨ s = "monthly" ∨ s = "yearly" ∨ s = "all-time") ∧
    oneofTimeFrame.contains "custom" = true ∧
    TimeFrame.Valid "custom" = false ∧
    TimeFrame.Value "custom" = Except.error "invalid TimeFrame" := by
  refine ⟨fun s => ?_, rfl, rfl, rfl⟩
  simp only [TimeFrame.Valid, TimeFrame.Daily, TimeFrame.Weekly, TimeFrame.Monthly,
    TimeFrame.Yearly, TimeFrame.AllTime, Bool.or_eq_true, beq_iff_eq]
  tauto

/-- C9 witness: the biconditional instantiated at the five valid strings and
at the string custom. -/
theorem timeFrame_valid_witness :
    TimeFrame.Valid "daily" = true ∧ TimeFrame.Valid "custom" = false := by
  have h := timeFrame_valid_exactly_five_and_custom_rejected
  exact ⟨(h.1 "daily").mpr (Or.inl rfl), h.2.2.1⟩

/-- C3: evaluation of CreateLeaderboard at a failing input.  Creating a
leaderboard with timeFrame custom and two date strings that both parse
stores StartDate = the parsed start but EndDate = none, because
utils.ValidateDates returns before ever parsing end_date; the stored custom
leaderboard therefore does not carry both dates, contradicting the
invariant. -/
theorem createLeaderboard_custom_drops_endDate :
    (CreateLeaderboard parseRFC3339x [] 1 "January Cup" "" "tournament"
        "individual" "custom" (some "2023-01-01T00:00:00Z")
        (some "2023-01-31T23:59:59Z") "descending" "public" 0 true).1 =
      ⟨1, "January Cup", "", "tournament", "individual", "custom", some 0, none,
        "descending", "public", 0, true, none⟩ ∧
    parseRFC3339x "2023-01-31T23:59:59Z" = some 30 :=
  ⟨rfl, rfl⟩

/-- C4: evaluation of UpdateLeaderboard at a failing input.  Updating a
leaderboard that has EndDate = 99, supplying only end_date (a string that
parses to 58), resets EndDate to none instead of applying the supplied
value: utils.ValidateDates returns the parsed end date in its first
component and nil in its second, and the update assigns that nil second
component to EndDate. -/
theorem updateLeaderboard_supplied_endDate_resets_to_none :
    (UpdateLeaderboard parseRFC3339x
        [⟨7, "League", "d", "season", "individual", "monthly", some 0, some 99,
          "descending", "public", 0, true, none⟩]
        7 none none none none none none (some "2023-02-28T23:59:59Z")
        none none none none).1 =
      Except.ok ⟨7, "League", "d", "season", "individual", "monthly", some 0, none,
        "descending", "public", 0, true, none⟩ ∧
    parseRFC3339x "2023-02-28T23:59:59Z" = some 58 :=
  ⟨rfl, rfl⟩

/-- C5: a create request with time_frame custom and only start_date supplied
fails the custom_timeframe validation, so the handler returns a validation
error and the leaderboard table is unchanged (the service is never
invoked). -/
theorem createLeaderboardHandler_custom_missing_endDate
    (datetimeOK : String → Bool) (parse : String → Option Int)
    (table : List Leaderboard) (newId : Nat)
    (name description category typ sd : String)
    (sortOrder visibilityScope : String) (maxEntries : Int) (isActive : Bool) :
    CreateLeaderboardHandler datetimeOK parse table newId name description
      category typ "custom" (some sd) none sortOrder visibilityScope
      maxEntries isActive =
      (Except.error HandlerError.validationError, table) := by
  have h : ValidateCreateLeaderboardRequest datetimeOK name category typ "custom"
      (some sd) none sortOrder visibilityScope maxEntries = false := by
    simp [ValidateCreateLeaderboardRequest, validateCustomTimeframe]
  simp [CreateLeaderboardHandler, h]

/-- C5 witness: the handler theorem at a concrete request. -/
theorem createLeaderboardHandler_custom_missing_endDate_witness :
    CreateLeaderboardHandler (fun _ => true) parseRFC3339x [] 1 "Cup" "" "t"
      "individual" "custom" (some "2023-01-01T00:00:00Z") none "descending"
      "public" 0 true = (Except.error HandlerError.validationError, []) :=
  createLeaderboardHandler_custom_missing_endDate (fun _ => true) parseRFC3339x
    [] 1 "Cup" "" "t" "individual" "2023-01-01T00:00:00Z" "descending" "public"
    0 true

/-- C6: CreateMetricValue returns the metric-not-found error when the metric
id resolves to no stored metric and the participant-not-found error when the
participant id resolves to no stored participant, leaving the metric value
table unchanged in both cases; when both referenced entities exist it creates
and returns the new MetricValue. -/
theorem createMetricValue_verifies_then_creates
    (metrics : List Metric) (participants : List Participant)
    (table : List MetricValue) (newId : Nat) (now : Int)
    (metricID participantID : Nat) (value : ℚ) (timestamp : Int)
    (source context : String) :
    (MetricRepository.FindByID metrics metricID = none →
      CreateMetricValue metrics participants table newId now metricID
        participantID value timestamp source context =
        (Except.error ServiceError.metricNotFound, table)) ∧
    (MetricRepository.FindByID metrics metricID ≠ none →
      ParticipantRepository.FindByID participants participantID = none →
      CreateMetricValue metrics participants table newId now metricID
        participantID value timestamp source context =
        (Except.error ServiceError.participantNotFound, table)) ∧
    (MetricRepository.FindByID metrics metricID ≠ none →
      ParticipantRepository.FindByID participants participantID ≠ none →
      CreateMetricValue metrics participants table newId now metricID
        participantID value timestamp source context =
        (Except.ok ⟨newId, metricID, participantID, value,
            if timestamp = 0 then now else timestamp, source, context, none⟩,
          table ++ [⟨newId, metricID, participantID, value,
            if timestamp = 0 then now else timestamp, source, context, none⟩])) := by
  refine ⟨fun h1 => ?_, fun h1 h2 => ?_, fun h1 h2 => ?_⟩
  · simp [CreateMetricValue, h1]
  · rcases Option.ne_none_iff_exists'.mp h1 with ⟨m, hm⟩
    simp [CreateMetricValue, hm, h2]
  · rcases Option.ne_none_iff_exists'.mp h1 with ⟨m, hm⟩
    rcases Option.ne_none_iff_exists'.mp h2 with ⟨p, hp⟩
    simp [CreateMetricValue, hm, hp]

/-- C6 witness: the three branches at concrete stores — an empty metric
table, then a store where the metric exists but the participant does not,
then a store where both exist. -/
theorem createMetricValue_witness :
    (MetricRepository.FindByID ([] : List Metric) 1 = none ∧
      CreateMetricValue [] [sampleParticipant] [] 5 100 1 2 3 7 "api" "" =
        (Except.error ServiceError.metricNotFound, [])) ∧
    (MetricRepository.FindByID [sampleMetric] 1 ≠ none ∧
      ParticipantRepository.FindByID ([] : List Participant) 2 = none ∧
      CreateMetricValue [sampleMetric] [] [] 5 100 1 2 3 7 "api" "" =
        (Except.error ServiceError.participantNotFound, [])) ∧
    (MetricRepository.FindByID [sampleMetric] 1 ≠ none ∧
      ParticipantRepository.FindByID [sampleParticipant] 2 ≠ none ∧
      CreateMetricValue [sampleMetric] [sampleParticipant] [] 5 100 1 2 3 7 "api" "" =
        (Except.ok ⟨5, 1, 2, 3, 7, "api", "", none⟩,
          [⟨5, 1, 2, 3, 7, "api", "", none⟩])) := by
  refine ⟨⟨by decide, ?_⟩, ⟨by decide, by decide, ?_⟩, ⟨by decide, by decide, ?_⟩⟩
  · exact (createMetricValue_verifies_then_creates [] [sampleParticipant] [] 5 100
      1 2 3 7 "api" "").1 (by decide)
  · exact (createMetricValue_verifies_then_creates [sampleMetric] [] [] 5 100
      1 2 3 7 "api" "").2.1 (by decide) (by decide)
  · have h := (createMetricValue_verifies_then_creates [sampleMetric]
      [sampleParticipant] [] 5 100 1 2 3 7 "api" "").2.2 (by decide) (by decide)
    simpa using h

/-- C10: a zero timestamp passed to CreateMetricValue is replaced by the
injected current time; likewise a zero lastUpdated in CreateLeaderboardEntry,
and an unsupplied lastUpdated in UpdateLeaderboardEntry, store the current
time. -/
theorem zero_timestamps_default_to_now
    (metrics : List Metric) (participants : List Participant)
    (leaderboards : List Leaderboard) (mvTable : List MetricValue)
    (entryTable : List LeaderboardEntry) (newId : Nat) (now : Int)
    (metricID participantID leaderboardID entryID : Nat) (value score : ℚ)
    (rank : Int) (scoreOpt : Option ℚ) (rankOpt : Option Int)
    (source context : String) :
    (MetricRepository.FindByID metrics metricID ≠ none →
      ParticipantRepository.FindByID participants participantID ≠ none →
      (CreateMetricValue metrics participants mvTable newId now metricID
          participantID value 0 source context).1.map MetricValue.timestamp =
        Except.ok now) ∧
    (LeaderboardRepository.FindByID leaderboards leaderboardID ≠ none →
      ParticipantRepository.FindByID participants participantID ≠ none →
      (CreateLeaderboardEntry leaderboards participants entryTable newId now
          leaderboardID participantID score rank 0).1.map
          LeaderboardEntry.lastUpdated = Except.ok now) ∧
    (LeaderboardEntryRepository.FindByID entryTable entryID ≠ none →
      (UpdateLeaderboardEntry entryTable now entryID scoreOpt rankOpt
          none).1.map LeaderboardEntry.lastUpdated = Except.ok now) := by
  refine ⟨fun h1 h2 => ?_, fun h1 h2 => ?_, fun h1 => ?_⟩
  · rcases Option.ne_none_iff_exists'.mp h1 with ⟨m, hm⟩
    rcases Option.ne_none_iff_exists'.mp h2 with ⟨p, hp⟩
    simp [CreateMetricValue, Except.map, hm, hp]
  · rcases Option.ne_none_iff_exists'.mp h1 with ⟨l, hl⟩
    rcases Option.ne_none_iff_exists'.mp h2 with ⟨p, hp⟩
    simp [CreateLeaderboardEntry, Except.map, hl, hp]
  · rcases Option.ne_none_iff_exists'.mp h1 with ⟨e, he⟩
    cases scoreOpt <;> cases rankOpt <;> simp [UpdateLeaderboardEntry, Except.map, he]

/-- C10 witness: the three defaulting branches at concrete stores and a
concrete clock value. -/
theorem zero_timestamps_default_to_now_witness :
    (MetricRepository.FindByID [sampleMetric] 1 ≠ none ∧
      ParticipantRepository.FindByID [sampleParticipant] 2 ≠ none ∧
      (CreateMetricValue [sampleMetric] [sampleParticipant] [] 5 100 1 2 3 0
          "api" "").1.map MetricValue.timestamp = Except.ok 100) ∧
    (LeaderboardRepository.FindByID [sampleLeaderboard] 3 ≠ none ∧
      (CreateLeaderboardEntry [sampleLeaderboard] [sampleParticipant] [] 6 100
          3 2 10 1 0).1.map LeaderboardEntry.lastUpdated = Except.ok 100) ∧
    (LeaderboardEntryRepository.FindByID [sampleEntry] 4 ≠ none ∧
      (UpdateLeaderboardEntry [sampleEntry] 100 4 (some 11) none none).1.map
          LeaderboardEntry.lastUpdated = Except.ok 100) := by
  have h := zero_timestamps_default_to_now [sampleMetric] [sampleParticipant]
    [sampleLeaderboard] [] [sampleEntry] 5 100 1 2 3 4 3 10 1 (some 11) none
    "api" ""
  refine ⟨⟨by decide, by decide, h.1 (by decide) (by decide)⟩,
    ⟨by decide, ?_⟩, ⟨by decide, h.2.2 (by decide)⟩⟩
  have h2 := zero_timestamps_default_to_now [sampleMetric] [sampleParticipant]
    [sampleLeaderboard] [] [sampleEntry] 6 100 1 2 3 4 3 10 1 (some 11) none
    "api" ""
  exact h2.2.1 (by decide) (by decide)

/-- Helper: the sort relation on entries is total and transitive, so the
insertion sort used to model ORDER BY rank asc yields a sorted list. -/
theorem rankLe_total_trans :
    (∀ a b : LeaderboardEntry, rankLe a b ∨ rankLe b a) ∧
    (∀ a b c : LeaderboardEntry, rankLe a b → rankLe b c → rankLe a c) :=
  ⟨fun a b => le_total a.rank b.rank, fun _ _ _ h1 h2 => le_trans h1 h2⟩

/-- C7: the entry listing filtered by a leaderboard id returns exactly the
non-deleted entry rows of that leaderboard, further restricted by the
participant id when one is supplied, and the returned list is ordered by
rank ascending. -/
theorem findFilteredEntries_exact_and_rank_sorted
    (table : List LeaderboardEntry) (lid : Nat) (participantID : Option Nat) :
    (LeaderboardEntryRepository.FindFiltered table (some lid) participantID).Perm
      (table.filter fun e =>
        decide (e.deletedAt = none) && decide (e.leaderboardId = lid) &&
        (match participantID with
         | none => true
         | some pid => decide (e.participantId = pid))) ∧
    List.Sorted rankLe
      (LeaderboardEntryRepository.FindFiltered table (some lid) participantID) ∧
    (∀ e, e ∈ LeaderboardEntryRepository.FindFiltered table (some lid) participantID ↔
      e ∈ table ∧ e.deletedAt = none ∧ e.leaderboardId = lid ∧
      ∀ pid, participantID = some pid → e.participantId = pid) := by
  refine ⟨List.perm_insertionSort rankLe _, ?_, fun e => ?_⟩
  · haveI : IsTotal LeaderboardEntry rankLe := ⟨rankLe_total_trans.1⟩
    haveI : IsTrans LeaderboardEntry rankLe := ⟨rankLe_total_trans.2⟩
    exact List.sorted_insertionSort rankLe _
  · unfold LeaderboardEntryRepository.FindFiltered
    cases participantID <;>
      simp [List.mem_filter, and_assoc]

/-- C7 witness: a concrete table with a deleted row, a row of another
leaderboard and two live rows listed in rank order. -/
theorem findFilteredEntries_witness :
    LeaderboardEntryRepository.FindFiltered
      [⟨10, 3, 2, 2, 5, 50, none⟩, ⟨11, 4, 2, 1, 9, 50, none⟩,
        ⟨12, 3, 6, 1, 8, 50, none⟩, ⟨13, 3, 7, 3, 1, 50, some 60⟩]
      (some 3) none =
      [⟨12, 3, 6, 1, 8, 50, none⟩, ⟨10, 3, 2, 2, 5, 50, none⟩] ∧
    List.Sorted rankLe
      (LeaderboardEntryRepository.FindFiltered
        [⟨10, 3, 2, 2, 5, 50, none⟩, ⟨11, 4, 2, 1, 9, 50, none⟩,
          ⟨12, 3, 6, 1, 8, 50, none⟩, ⟨13, 3, 7, 3, 1, 50, some 60⟩]
        (some 3) none) := by
  refine ⟨by decide, ?_⟩
  exact (findFilteredEntries_exact_and_rank_sorted
    [⟨10, 3, 2, 2, 5, 50, none⟩, ⟨11, 4, 2, 1, 9, 50, none⟩,
      ⟨12, 3, 6, 1, 8, 50, none⟩, ⟨13, 3, 7, 3, 1, 50, some 60⟩] 3 none).2.1

/-- C8: the metric value listing filtered by an inclusive time range returns
exactly the non-deleted rows whose timestamp t satisfies from <= t and
t <= to, intersected with the metric and participant filters; an absent
bound or filter imposes no constraint. -/
theorem findFilteredMetricValues_exact
    (table : List MetricValue) (metricID participantID : Option Nat)
    (fromTime toTime : Option Int) :
    (MetricValueRepository.FindFiltered table metricID participantID
        fromTime toTime).Perm
      (table.filter fun mv =>
        decide (mv.deletedAt = none) &&
        (match metricID with
         | none => true
         | some m => decide (mv.metricId = m)) &&
        (match participantID with
         | none => true
         | some p => decide (mv.participantId = p)) &&
        (match fromTime with
         | none => true
         | some f => decide (f ≤ mv.timestamp)) &&
        (match toTime with
         | none => true
         | some t => decide (mv.timestamp ≤ t))) ∧
    (∀ mv, mv ∈ MetricValueRepository.FindFiltered table metricID participantID
        fromTime toTime ↔
      mv ∈ table ∧ mv.deletedAt = none ∧
      (∀ m, metricID = some m → mv.metricId = m) ∧
      (∀ p, participantID = some p → mv.participantId = p) ∧
      (∀ f, fromTime = some f → f ≤ mv.timestamp) ∧
      (∀ t, toTime = some t → mv.timestamp ≤ t)) := by
  refine ⟨List.perm_insertionSort timestampDesc _, fun mv => ?_⟩
  unfold MetricValueRepository.FindFiltered
  cases metricID <;> cases participantID <;> cases fromTime <;> cases toTime <;>
    simp [List.mem_filter, and_assoc]

/-- C8 witness: a concrete table where only the row inside the inclusive
range [5, 9] that also matches the metric filter is returned; a row at the
lower bound is included (inclusive from) and one above the upper bound is
excluded. -/
theorem findFilteredMetricValues_witness :
    MetricValueRepository.FindFiltered
      [⟨20, 1, 2, 3, 5, "s", "", none⟩, ⟨21, 1, 2, 4, 10, "s", "", none⟩,
        ⟨22, 9, 2, 5, 6, "s", "", none⟩, ⟨23, 1, 2, 6, 4, "s", "", none⟩]
      (some 1) none (some 5) (some 9) = [⟨20, 1, 2, 3, 5, "s", "", none⟩] ∧
    (⟨20, 1, 2, 3, 5, "s", "", none⟩ : MetricValue) ∈
      MetricValueRepository.FindFiltered
        [⟨20, 1, 2, 3, 5, "s", "", none⟩, ⟨21, 1, 2, 4, 10, "s", "", none⟩,
          ⟨22, 9, 2, 5, 6, "s", "", none⟩, ⟨23, 1, 2, 6, 4, "s", "", none⟩]
        (some 1) none (some 5) (some 9) := by
  refine ⟨by decide, ?_⟩
  exact ((findFilteredMetricValues_exact
    [⟨20, 1, 2, 3, 5, "s", "", none⟩, ⟨21, 1, 2, 4, 10, "s", "", none⟩,
      ⟨22, 9, 2, 5, 6, "s", "", none⟩, ⟨23, 1, 2, 6, 4, "s", "", none⟩]
    (some 1) none (some 5) (some 9)).2 ⟨20, 1, 2, 3, 5, "s", "", none⟩).mpr
    ⟨by decide, by decide, by decide, by decide, by decide, by decide⟩

/-- C1: the aggregation contract.  For sum the result is the sum of the
values, 0 on the empty multiset and independent of insertion order; for
average the result is the arithmetic mean, 0 on the empty multiset; for min,
max and last the empty multiset yields the NoData result none, which is
distinct from the numeric value 0. -/
theorem getAggregate_contract (V W : List Observation) (hVW : V.Perm W) :
    GetAggregate AggregationType.sum [] = some 0 ∧
    GetAggregate AggregationType.sum V = some (V.map Observation.value).sum ∧
    GetAggregate AggregationType.sum V = GetAggregate AggregationType.sum W ∧
    GetAggregate AggregationType.average [] = some 0 ∧
    (V ≠ [] → GetAggregate AggregationType.average V =
      some ((V.map Observation.value).sum / V.length)) ∧
    GetAggregate AggregationType.min [] = none ∧
    GetAggregate AggregationType.max [] = none ∧
    GetAggregate AggregationType.last [] = none ∧
    GetAggregate AggregationType.min [] ≠ some 0 ∧
    GetAggregate AggregationType.max [] ≠ some 0 ∧
    GetAggregate AggregationType.last [] ≠ some 0 := by
  refine ⟨rfl, rfl, ?_, rfl, fun hne => ?_, rfl, rfl, rfl,
    by simp [GetAggregate], by simp [GetAggregate], by simp [GetAggregate]⟩
  · have hsum : (V.map Observation.value).sum = (W.map Observation.value).sum :=
      (hVW.map Observation.value).sum_eq
    simp [GetAggregate, hsum]
  · simp [GetAggregate, List.isEmpty_iff, hne]

/-- C1 witness: the contract instantiated at a two-observation multiset and
a reordering of it; sum is order independent and equals 8, average is 4. -/
theorem getAggregate_witness :
    ([⟨3, 1, 1⟩, ⟨5, 2, 2⟩] : List Observation).Perm [⟨5, 2, 2⟩, ⟨3, 1, 1⟩] ∧
    GetAggregate AggregationType.sum [⟨3, 1, 1⟩, ⟨5, 2, 2⟩] = some 8 ∧
    GetAggregate AggregationType.sum [⟨3, 1, 1⟩, ⟨5, 2, 2⟩] =
      GetAggregate AggregationType.sum [⟨5, 2, 2⟩, ⟨3, 1, 1⟩] ∧
    GetAggregate AggregationType.average [⟨3, 1, 1⟩, ⟨5, 2, 2⟩] = some 4 := by
  have h := getAggregate_contract [⟨3, 1, 1⟩, ⟨5, 2, 2⟩] [⟨5, 2, 2⟩, ⟨3, 1, 1⟩]
    (by decide)
  refine ⟨by decide, ?_, h.2.2.1, ?_⟩
  · have h2 := h.2.1
    rw [h2]
    norm_num [List.map_cons, List.map_nil, List.sum_cons, List.sum_nil]
  · have h3 := h.2.2.2.2.1 (by decide)
    rw [h3]
    norm_num [List.map_cons, List.map_nil, List.sum_cons, List.sum_nil]

/-- Helper: range' unfolding step. -/
theorem range'_cons (s n : Nat) : List.range' s (n + 1) = s :: List.range' (s + 1) n := rfl

/-- Helper: the spec sort key is total. -/
theorem candLe_total (asc : Bool) (a b : Nat × ℚ) : candLe asc a b ∨ candLe asc b a := by
  unfold candLe
  rcases lt_trichotomy a.2 b.2 with h | h | h
  · cases asc <;> simp [h]
  · rcases Nat.le_total a.1 b.1 with hp | hp
    · exact Or.inl (Or.inr ⟨h, hp⟩)
    · exact Or.inr (Or.inr ⟨h.symm, hp⟩)
  · cases asc <;> simp [h]

/-- Helper: the spec sort key is transitive. -/
theorem candLe_trans (asc : Bool) (a b c : Nat × ℚ) :
    candLe asc a b → candLe asc b c → candLe asc a c := by
  cases asc
  · show (b.2 < a.2 ∨ (a.2 = b.2 ∧ a.1 ≤ b.1)) →
      (c.2 < b.2 ∨ (b.2 = c.2 ∧ b.1 ≤ c.1)) →
      (c.2 < a.2 ∨ (a.2 = c.2 ∧ a.1 ≤ c.1))
    intro hab hbc
    rcases hab with hab | ⟨he1, hp1⟩ <;> rcases hbc with hbc | ⟨he2, hp2⟩
    · exact Or.inl (lt_trans hbc hab)
    · exact Or.inl (by rw [← he2]; exact hab)
    · exact Or.inl (by rw [he1]; exact hbc)
    · exact Or.inr ⟨he1.trans he2, Nat.le_trans hp1 hp2⟩
  · show (a.2 < b.2 ∨ (a.2 = b.2 ∧ a.1 ≤ b.1)) →
      (b.2 < c.2 ∨ (b.2 = c.2 ∧ b.1 ≤ c.1)) →
      (a.2 < c.2 ∨ (a.2 = c.2 ∧ a.1 ≤ c.1))
    intro hab hbc
    rcases hab with hab | ⟨he1, hp1⟩ <;> rcases hbc with hbc | ⟨he2, hp2⟩
    · exact Or.inl (lt_trans hab hbc)
    · exact Or.inl (by rw [← he2]; exact hab)
    · exact Or.inl (by rw [he1]; exact hbc)
    · exact Or.inr ⟨he1.trans he2, Nat.le_trans hp1 hp2⟩

/-- Helper: the non-strict key together with distinct participant ids gives
the strict order. -/
theorem candLe_ne_lt (asc : Bool) (a b : Nat × ℚ) (h : candLe asc a b)
    (hne : a.1 ≠ b.1) : candLt asc a b := by
  unfold candLe at h
  unfold candLt
  rcases h with h | ⟨he, hp⟩
  · exact Or.inl h
  · exact Or.inr ⟨he, lt_of_le_of_ne hp hne⟩

/-- Helper: assignRanks hands out the ranks r, r+1, ... in list order. -/
theorem assignRanks_map_rank (l : List (Nat × ℚ)) (r : Nat) :
    (assignRanks l r).map RankedEntry.rank = List.range' r l.length := by
  induction l generalizing r with
  | nil => rfl
  | cons c cs ih =>
    simp only [assignRanks, List.map_cons, ih, List.length_cons, range'_cons]

/-- Helper: assignRanks preserves the (participant id, score) pairs in
order. -/
theorem assignRanks_map_pidScore (l : List (Nat × ℚ)) (r : Nat) :
    (assignRanks l r).map pidScore = l := by
  induction l generalizing r with
  | nil => rfl
  | cons c cs ih => simp [assignRanks, pidScore, ih]

/-- Helper: a pairwise property of the sorted pairs lifts to the ranked
entries. -/
theorem assignRanks_pairwise (R : Nat × ℚ → Nat × ℚ → Prop)
    (l : List (Nat × ℚ)) (r : Nat) (h : l.Pairwise R) :
    (assignRanks l r).Pairwise fun e f => R (pidScore e) (pidScore f) := by
  have h2 : ((assignRanks l r).map pidScore).Pairwise R := by
    rw [assignRanks_map_pidScore]; exact h
  exact List.pairwise_map.mp h2

/-- C2: the ranking pass assigns a total order consistent with SortOrder.
The output carries the dense ranks 1..N in list order, is a permutation of
the candidate (participant id, score) pairs, and is strictly sorted by the
composite-score order of the leaderboard SortOrder (ascending: smallest
score first, otherwise largest first) with ties broken by ascending
participant id — so equal scores receive distinct sequential ranks. -/
theorem recomputeLeaderboardRanks_total_order (sortOrder : String)
    (cands : List (Nat × ℚ)) (hnd : (cands.map Prod.fst).Nodup) :
    (RecomputeLeaderboardRanks sortOrder cands).map RankedEntry.rank =
      List.range' 1 cands.length ∧
    ((RecomputeLeaderboardRanks sortOrder cands).map pidScore).Perm cands ∧
    (RecomputeLeaderboardRanks sortOrder cands).Pairwise fun e f =>
      candLt (sortOrder == "ascending") (pidScore e) (pidScore f) := by
  have hperm : (List.insertionSort (candLe (sortOrder == "ascending")) cands).Perm cands :=
    List.perm_insertionSort (candLe (sortOrder == "ascending")) cands
  haveI : IsTotal (Nat × ℚ) (candLe (sortOrder == "ascending")) :=
    ⟨candLe_total (sortOrder == "ascending")⟩
  haveI : IsTrans (Nat × ℚ) (candLe (sortOrder == "ascending")) :=
    ⟨candLe_trans (sortOrder == "ascending")⟩
  have hsorted : List.Sorted (candLe (sortOrder == "ascending"))
      (List.insertionSort (candLe (sortOrder == "ascending")) cands) :=
    List.sorted_insertionSort (candLe (sortOrder == "ascending")) cands
  have hnd2 : ((List.insertionSort (candLe (sortOrder == "ascending")) cands).map
      Prod.fst).Nodup := ((hperm.map Prod.fst).nodup_iff).mpr hnd
  have hpairNe : (List.insertionSort (candLe (sortOrder == "ascending")) cands).Pairwise
      fun a b => a.1 ≠ b.1 := List.pairwise_map.mp hnd2
  have hstrict : (List.insertionSort (candLe (sortOrder == "ascending")) cands).Pairwise
      (candLt (sortOrder == "ascending")) :=
    (hsorted.and hpairNe).imp fun hab => candLe_ne_lt _ _ _ hab.1 hab.2
  refine ⟨?_, ?_, ?_⟩
  · unfold RecomputeLeaderboardRanks
    rw [assignRanks_map_rank, hperm.length_eq]
  · unfold RecomputeLeaderboardRanks
    rw [assignRanks_map_pidScore]
    exact hperm
  · unfold RecomputeLeaderboardRanks
    exact assignRanks_pairwise _ _ _ hstrict

/-- C2 witness: the spec scenario — descending sort order, participant 1
with composite score 8 and participant 2 with composite score 0 — ranks are
1..2 and the ranked pairs are a permutation of the candidates. -/
theorem recomputeLeaderboardRanks_witness :
    (([(1, (8 : ℚ)), (2, 0)] : List (Nat × ℚ)).map Prod.fst).Nodup ∧
    (RecomputeLeaderboardRanks "descending" [(1, 8), (2, 0)]).map RankedEntry.rank =
      List.range' 1 2 ∧
    ((RecomputeLeaderboardRanks "descending" [(1, 8), (2, 0)]).map pidScore).Perm
      [(1, 8), (2, 0)] :=
  ⟨by decide,
    (recomputeLeaderboardRanks_total_order "descending" [(1, 8), (2, 0)]
      (by decide)).1,
    (recomputeLeaderboardRanks_total_order "descending" [(1, 8), (2, 0)]
      (by decide)).2.1⟩

end Leaderboards
